import Mathlib

/-!
Shallow embedding of the path-finder core (MatrixWorld, Path, PathFinderUtils,
DFSAlgorithm) from the C++ sources, together with theorems settling the
specification claims.

Machine integers are modelled as `Nat` with explicit `% 2^w` at the points
where the C++ code narrows a value (the `uint16_t` cell-count getters and the
`uint8_t` candidate-count parameter).  Fallible C++ code (functions that throw)
is modelled with `Except Err`.
-/

/-- A grid coordinate `(row, col)`; the C++ code uses `std::pair<uint16_t, uint16_t>`. -/
abbrev Coord := Nat × Nat

instance exceptDecEq {ε α : Type} [DecidableEq ε] [DecidableEq α] :
    DecidableEq (Except ε α) := fun a b =>
  match a, b with
  | .error e, .error f =>
    if h : e = f then isTrue (congrArg Except.error h)
    else isFalse fun he => h (Except.error.inj he)
  | .ok x, .ok y =>
    if h : x = y then isTrue (congrArg Except.ok h)
    else isFalse fun he => h (Except.ok.inj he)
  | .error _, .ok _ => isFalse Except.noConfusion
  | .ok _, .error _ => isFalse Except.noConfusion

/-- Error kinds thrown by the C++ code.  `invalidArgument`, `lengthError`,
`runtimeError` and `outOfRange` correspond to `std::invalid_argument`,
`std::length_error`, `std::runtime_error` and `std::out_of_range`; the carried
string is the exception message from the source.  `outOfFuel` is the artificial
result of the structural fuel used to embed the C++ loops/recursion; the fuel
supplied at every call site is large enough that it is never reached. -/
inductive Err where
  | invalidArgument (msg : String)
  | lengthError (msg : String)
  | runtimeError (msg : String)
  | outOfRange (msg : String)
  | outOfFuel
  deriving DecidableEq, Repr

/-- State of a `MatrixWorld` object (`matrix_utils.hpp` lines 30-38):
`worldMatrix : std::vector<bool>` (false = unblocked, true = blocked),
`rows`, `cols : uint16_t` and the two `uint32_t` cell counters. -/
structure MatrixWorld where
  worldMatrix : List Bool
  rows : Nat
  cols : Nat
  noOfUnblockedCells : Nat
  noOfBlockedCells : Nat
  deriving DecidableEq, Repr

namespace MatrixWorld

/-- Member state of a `MatrixWorld` object before the constructor body runs
(an empty vector and zeroed fields); `matrixInit` is run on it. -/
def preConstruction : MatrixWorld := ⟨[], 0, 0, 0, 0⟩

/-- Model of `std::vector<bool>::max_size()`: an implementation-defined huge
bound.  With `uint16_t` dimensions `rows * cols ≤ 65535 * 65535`, far below it,
so the `length_error` branch of `matrixInitialize` is unreachable. -/
def vectorBoolMaxSize : Nat := 2 ^ 62

/-- `MatrixWorld::getIndex` (`matrix_utils.cpp` 38-51): checks emptiness then
bounds, and returns the row-major index `row * cols + col`. -/
def getIndex (m : MatrixWorld) (row col : Nat) : Except Err Nat :=
  if m.worldMatrix.isEmpty then
    .error (.lengthError "The matrix is empty, index lookup is impossible!")
  else if row ≥ m.rows ∨ col ≥ m.cols then
    .error (.invalidArgument "The given parameters are out of bounds of the matrix")
  else
    .ok (row * m.cols + col)

/-- `MatrixWorld::matrixInitialize` (`matrix_utils.cpp` 114-132).  The
receiver `m` is the object state before the call; `worldMatrix.resize(n,
false)` keeps the existing prefix and pads with `false`. -/
def matrixInit (m : MatrixWorld) (rows cols : Nat) : Except Err MatrixWorld :=
  if rows = 0 ∨ cols = 0 then
    .error (.invalidArgument "Matrix cannot be empty")
  else
    let matrixSize := rows * cols
    if matrixSize > vectorBoolMaxSize then
      .error (.lengthError "Matrix is too large for memory")
    else
      .ok { worldMatrix :=
              m.worldMatrix.take matrixSize ++
                List.replicate (matrixSize - m.worldMatrix.length) false,
            rows := rows, cols := cols,
            noOfUnblockedCells := matrixSize, noOfBlockedCells := 0 }

/-- `MatrixWorld::MatrixWorld(rows, cols)` (`matrix_utils.cpp` 21-24):
delegates to `matrixInitialize` on the fresh member state. -/
def construct (rows cols : Nat) : Except Err MatrixWorld :=
  matrixInit preConstruction rows cols

/-- `MatrixWorld::matrixResize` (`matrix_utils.cpp` 63-74): wraps
`matrixInitialize` in try/catch; on failure the state is unchanged (the
dimension check precedes every mutation). -/
def matrixResize (m : MatrixWorld) (rows cols : Nat) : Bool × MatrixWorld :=
  match matrixInit m rows cols with
  | .ok m' => (true, m')
  | .error _ => (false, m)

/-- `MatrixWorld::setCell` (`matrix_utils.cpp` 159-201).  `getIndex` failures
are caught and turned into `false`; counters move only when the stored bit
actually changes, guarded against underflow.  Writing the state the cell
already has hits the `else { return false; }` branch. -/
def setCell (m : MatrixWorld) (row col : Nat) (state : Bool) : Bool × MatrixWorld :=
  match m.getIndex row col with
  | .error _ => (false, m)
  | .ok indexToChange =>
    if m.worldMatrix.getD indexToChange false ≠ state then
      let wm := m.worldMatrix.set indexToChange state
      if state then
        if m.noOfUnblockedCells > 0 then
          (true, { m with worldMatrix := wm,
                          noOfUnblockedCells := m.noOfUnblockedCells - 1,
                          noOfBlockedCells := m.noOfBlockedCells + 1 })
        else (true, { m with worldMatrix := wm })
      else
        if m.noOfBlockedCells > 0 then
          (true, { m with worldMatrix := wm,
                          noOfBlockedCells := m.noOfBlockedCells - 1,
                          noOfUnblockedCells := m.noOfUnblockedCells + 1 })
        else (true, { m with worldMatrix := wm })
    else (false, m)

/-- `MatrixWorld::isUnblocked` (`matrix_utils.cpp` 308-312): strict query, the
`getIndex` exceptions propagate; the stored bit is inverted. -/
def isUnblocked (m : MatrixWorld) (row col : Nat) : Except Err Bool :=
  match m.getIndex row col with
  | .error e => .error e
  | .ok indexToCheck => .ok (!(m.worldMatrix.getD indexToCheck false))

/-- The value `isUnblocked` yields at an in-bounds coordinate of a well-formed
grid (`!worldMatrix[row * cols + col]`).  Used to embed the call sites that
check bounds before calling `isUnblocked` (the DFS neighbor expansion, the
selector population scan and `countUnblockedNeighbors`), where the exception
path of `isUnblocked` is unreachable; `isUnblocked_eq_cellUnblocked` below
justifies the substitution. -/
def cellUnblocked (m : MatrixWorld) (row col : Nat) : Bool :=
  !(m.worldMatrix.getD (row * m.cols + col) false)

/-- `MatrixWorld::matrixBlanking` (`matrix_utils.cpp` 86-100): `std::all_of`
over the coordinates, stopping at the first `false`; per coordinate it calls
`isUnblocked` (whose exceptions propagate, leaving earlier writes in place)
and blocks the cell via `setCell` only when it is currently unblocked. -/
def matrixBlanking (m : MatrixWorld) : List Coord → Except Err Bool × MatrixWorld
  | [] => (.ok true, m)
  | coordinate :: rest =>
    match m.isUnblocked coordinate.1 coordinate.2 with
    | .error e => (.error e, m)
    | .ok true =>
      let r := m.setCell coordinate.1 coordinate.2 true
      if r.1 then matrixBlanking r.2 rest else (.ok false, r.2)
    | .ok false => matrixBlanking m rest

/-- `MatrixWorld::clearMatrix` (`matrix_utils.cpp` 212-223). -/
def clearMatrix (m : MatrixWorld) : Bool × MatrixWorld :=
  if m.worldMatrix.isEmpty then (false, m)
  else
    (true, { m with worldMatrix := List.replicate m.worldMatrix.length false,
                    noOfUnblockedCells := m.worldMatrix.length,
                    noOfBlockedCells := 0 })

/-- `MatrixWorld::getRowSize` (`matrix_utils.cpp` 233-238): returns `cols`. -/
def getRowSize (m : MatrixWorld) : Nat := m.cols

/-- `MatrixWorld::getColSize` (`matrix_utils.cpp` 248-253): returns `rows`. -/
def getColSize (m : MatrixWorld) : Nat := m.rows

/-- `MatrixWorld::getTotalCells` (`matrix_utils.cpp` 359-362):
`worldMatrix.size()`. -/
def getTotalCells (m : MatrixWorld) : Nat := m.worldMatrix.length

/-- `MatrixWorld::getNoOfUnblockedCells` (`matrix_utils.cpp` 322-325): the
`uint32_t` counter is returned through a `uint16_t` return type, i.e. reduced
modulo `2^16`. -/
def getNoOfUnblockedCells (m : MatrixWorld) : Nat := m.noOfUnblockedCells % 65536

/-- `MatrixWorld::getNoOfBlockedCells` (`matrix_utils.cpp` 335-338): same
`uint32_t`-to-`uint16_t` narrowing. -/
def getNoOfBlockedCells (m : MatrixWorld) : Nat := m.noOfBlockedCells % 65536

/-- The four direction offsets used by both `countUnblockedNeighbors`
(`matrix_utils.cpp` 276) and `dfsRecursive` (`dfs_algorithm.cpp` 107):
up, right, down, left. -/
def directions : List (Int × Int) := [(-1, 0), (0, 1), (1, 0), (0, -1)]

/-- `MatrixWorld::countUnblockedNeighbors` (`matrix_utils.cpp` 266-293):
returns the sentinel 0 for an out-of-bounds center, otherwise counts the
4-directional neighbors that pass the bounds check and are unblocked.  The
neighbor read is bounds-checked first, so `isUnblocked` is embedded by
`cellUnblocked`. -/
def countUnblockedNeighbors (m : MatrixWorld) (row col : Nat) : Nat :=
  if row ≥ m.rows ∨ col ≥ m.cols then 0
  else
    directions.foldl
      (fun count direction =>
        let newRow : Int := (row : Int) + direction.1
        let newCol : Int := (col : Int) + direction.2
        if 0 ≤ newRow ∧ newRow < (m.rows : Int) ∧ 0 ≤ newCol ∧ newCol < (m.cols : Int) ∧
            m.cellUnblocked newRow.toNat newCol.toNat then count + 1 else count)
      0

/-- Well-formedness of a reachable `MatrixWorld`: the bit vector has exactly
`rows * cols` entries, both dimensions are positive, and the two counters sum
to the cell count. -/
def Valid (m : MatrixWorld) : Prop :=
  m.worldMatrix.length = m.rows * m.cols ∧
  1 ≤ m.rows ∧ 1 ≤ m.cols ∧
  m.noOfUnblockedCells + m.noOfBlockedCells = m.rows * m.cols

instance (m : MatrixWorld) : Decidable m.Valid := by
  unfold Valid; infer_instance

end MatrixWorld

/-! ### Path (`path.cpp`) -/

namespace Path

/-- `Path::isContiguous` (`path.cpp` 90-112): walks consecutive pairs,
computing each per-axis distance with the underflow-safe conditional
`(a > b) ? (a - b) : (b - a)` and requiring the Manhattan sum to be exactly 1;
fewer than two coordinates are trivially contiguous.  The deque of the C++
class is modelled by the coordinate list. -/
def isContiguous : List Coord → Bool
  | [] => true
  | [_] => true
  | (row1, col1) :: (row2, col2) :: rest =>
    let rowDist := if row1 > row2 then row1 - row2 else row2 - row1
    let colDist := if col1 > col2 then col1 - col2 else col2 - col1
    if rowDist + colDist ≠ 1 then false
    else isContiguous ((row2, col2) :: rest)

end Path

/-! ### PathFinderUtils (`path_finder_utils.cpp`) -/

/-- State of a `PathFinderUtils` object (`path_finder_utils.hpp` 36-38): the
`std::priority_queue` of `(score, coordinate)` pairs, modelled as the list of
its elements in pop order (descending in the `std::pair` lexicographic order
used by the queue; all elements are distinct, so the pop order is exactly the
descending sort), plus the exhaustion flag. -/
structure PathFinderUtils where
  priorityQueue : List (Nat × Coord)
  isExhausted : Bool
  deriving DecidableEq, Repr

namespace PathFinderUtils

/-- `PathFinderUtils::PathFinderUtils()`: empty queue, not exhausted. -/
def init : PathFinderUtils := ⟨[], false⟩

/-- `operator<` of `std::pair<uint32_t, std::pair<uint16_t, uint16_t>>`:
lexicographic on score, then row, then column. -/
def pairLtB (a b : Nat × Coord) : Bool :=
  a.1 < b.1 ∨ (a.1 = b.1 ∧ (a.2.1 < b.2.1 ∨ (a.2.1 = b.2.1 ∧ a.2.2 < b.2.2)))

/-- Order in which the priority queue hands out its elements: `a` before `b`
when `a` is not smaller than `b` in the `std::pair` order. -/
abbrev popOrder (a b : Nat × Coord) : Prop := pairLtB a b = false

/-- The `(score, coordinate)` pairs inserted by the lazy population scan of
`findStartingPointCandidates` (`path_finder_utils.cpp` 81-98): the outer loop
runs `colIndex` over `getRowSize()` (= cols), the inner loop runs `rowIndex`
over `getColSize()` (= rows), and every unblocked cell is inserted with its
unblocked-neighbor count as score.  The scan checks the loop bounds before
reading, so `isUnblocked` is embedded by `cellUnblocked`. -/
def populateElems (m : MatrixWorld) : List (Nat × Coord) :=
  (List.range m.getRowSize).flatMap fun colIndex =>
    (List.range m.getColSize).filterMap fun rowIndex =>
      if m.cellUnblocked rowIndex colIndex then
        some (m.countUnblockedNeighbors rowIndex colIndex, (rowIndex, colIndex))
      else none

/-- The fully populated priority queue, as its pop-order listing. -/
def buildQueue (m : MatrixWorld) : List (Nat × Coord) :=
  (populateElems m).insertionSort popOrder

/-- `PathFinderUtils::findStartingPointCandidates` (`path_finder_utils.cpp`
51-133): the four validation checks in source order, lazy population when the
queue is empty, then either extraction of exactly `numberOfCandidates`
elements (marking exhaustion if that empties the queue) or extraction of
everything that remains with exhaustion set.  `numberOfCandidates` is the
value of the `uint8_t` parameter. -/
def findStartingPointCandidates (m : MatrixWorld) (numberOfCandidates : Nat)
    (st : PathFinderUtils) : Except Err (List Coord × PathFinderUtils) :=
  if numberOfCandidates = 0 then
    .error (.invalidArgument "Number of candidates must be greater than zero.")
  else if m.getTotalCells = m.getNoOfBlockedCells then
    .error (.invalidArgument "Matrix is empty. Cannot find starting point candidates.")
  else if numberOfCandidates > m.getTotalCells then
    .error (.lengthError "Number of candidates exceeds total number of cells in the matrix.")
  else if st.isExhausted then
    .error (.runtimeError "All candidates have been exhausted.")
  else
    let queue := if st.priorityQueue.isEmpty then buildQueue m else st.priorityQueue
    if queue.length > numberOfCandidates then
      let rest := queue.drop numberOfCandidates
      .ok ((queue.take numberOfCandidates).map Prod.snd, ⟨rest, rest.isEmpty⟩)
    else
      .ok (queue.map Prod.snd, ⟨[], true⟩)

/-- Driver for a sequence of `findStartingPointCandidates` calls on one
selector instance: runs one call per entry of `counts`, collecting the
returned batches; any thrown error aborts the sequence. -/
def runSelector (m : MatrixWorld) :
    PathFinderUtils → List Nat → Except Err (List (List Coord) × PathFinderUtils)
  | st, [] => .ok ([], st)
  | st, count :: counts =>
    match findStartingPointCandidates m count st with
    | .error e => .error e
    | .ok (batch, st') =>
      match runSelector m st' counts with
      | .error e => .error e
      | .ok (batches, stFinal) => .ok (batch :: batches, stFinal)

end PathFinderUtils

/-! ### DFSAlgorithm (`dfs_algorithm.cpp`) -/

namespace DFSAlgorithm

open MatrixWorld PathFinderUtils

/-- The direction-loop body of `DFSAlgorithm::dfsRecursive`
(`dfs_algorithm.cpp` 109-134): tries the offsets in order; a neighbor must be
in bounds, unvisited and unblocked; the recursive search continues from the
extended path, and on failure the next direction is tried with the original
path and visited set (the C++ pop/unmark backtracking).  `dfs` is the
recursive call at the next depth; the bounds are checked before the
`isUnblocked` call, which is therefore embedded by `cellUnblocked`. -/
def dfsTry (m : MatrixWorld) (dfs : List Coord → List Coord → Option (List Coord))
    (currentPath visited : List Coord) (cur : Coord) :
    List (Int × Int) → Option (List Coord)
  | [] => none
  | direction :: rest =>
    let newRow : Int := (cur.1 : Int) + direction.1
    let newCol : Int := (cur.2 : Int) + direction.2
    if 0 ≤ newRow ∧ newRow < (m.getColSize : Int) ∧ 0 ≤ newCol ∧ newCol < (m.getRowSize : Int) ∧
        (newRow.toNat, newCol.toNat) ∉ visited ∧ m.cellUnblocked newRow.toNat newCol.toNat then
      match dfs (currentPath ++ [(newRow.toNat, newCol.toNat)])
              ((newRow.toNat, newCol.toNat) :: visited) with
      | some p => some p
      | none => dfsTry m dfs currentPath visited cur rest
    else dfsTry m dfs currentPath visited cur rest

/-- `DFSAlgorithm::dfsRecursive` (`dfs_algorithm.cpp` 91-137).  Success
returns the completed path (the C++ `true` plus the by-reference
`currentPath`); `none` is the C++ `false`, with `currentPath`/`visited`
restored by backtracking.  `fuel` bounds the recursion depth structurally;
every call at path length `L < target` recurses at length `L + 1`, so `fuel =
target` suffices from the seeds of length 1 used by `findViablePath`.
An empty path (impossible from those seeds) would make
`getCurrentCoordinate` throw; it is mapped to `none`. -/
def dfsRecursive (m : MatrixWorld) (targetLength : Nat) :
    Nat → List Coord → List Coord → Option (List Coord)
  | 0 => fun _ _ => none
  | fuel + 1 => fun currentPath visited =>
    if currentPath.length = targetLength then some currentPath
    else
      match currentPath.getLast? with
      | none => none
      | some cur =>
        dfsTry m (dfsRecursive m targetLength fuel) currentPath visited cur directions

/-- The per-batch loop of `DFSAlgorithm::findViablePath` (`dfs_algorithm.cpp`
50-65): for each starting point, a fresh visited mask with the start marked
and a fresh path seeded with the start, then the recursive DFS; the first
success is returned. -/
def tryStarts (m : MatrixWorld) (targetLength : Nat) : List Coord → Option (List Coord)
  | [] => none
  | start :: rest =>
    match dfsRecursive m targetLength targetLength [start] [start] with
    | some p => some p
    | none => tryStarts m targetLength rest

/-- The `while (!pathFinder.getIsExhausted())` loop of `findViablePath`
(`dfs_algorithm.cpp` 45-66).  `fuel` bounds the iteration count structurally;
each successful selector call either removes at least one queue element
(the count is nonzero, else the call errors) or sets the exhaustion flag, so
`getTotalCells + 2` iterations always suffice. -/
def findLoop (m : MatrixWorld) (targetLength count : Nat) :
    Nat → PathFinderUtils → Except Err (List Coord)
  | 0 => fun _ => .error .outOfFuel
  | fuel + 1 => fun pathFinder =>
    if pathFinder.isExhausted then .ok []
    else
      match findStartingPointCandidates m count pathFinder with
      | .error e => .error e
      | .ok (startingPoints, pathFinder') =>
        match tryStarts m targetLength startingPoints with
        | some p => .ok p
        | none => findLoop m targetLength count fuel pathFinder'

/-- `DFSAlgorithm::findViablePath` (`dfs_algorithm.cpp` 30-69):  validates the
target length, then runs the batch loop with a fresh selector.
`pathLength` and `maxStartingPoints` carry the values of the `uint16_t`
fields `PathLength::value` and `MaxStartingPoints::value`; passing the latter
to the `uint8_t` parameter of `findStartingPointCandidates` narrows it to
`maxStartingPoints % 256`. -/
def findViablePath (m : MatrixWorld) (pathLength maxStartingPoints : Nat) :
    Except Err (List Coord) :=
  if pathLength = 0 then
    .error (.invalidArgument "Path length must be greater than zero")
  else if pathLength > m.getTotalCells then
    .error (.invalidArgument "Path length exceeds matrix size")
  else
    findLoop m pathLength (maxStartingPoints % 256) (m.getTotalCells + 2) PathFinderUtils.init

end DFSAlgorithm

/-! ### Operation sequences over a `MatrixWorld` (for the counter invariant) -/

/-- One public mutating operation on a `MatrixWorld`. -/
inductive MOp where
  | resize (rows cols : Nat)
  | set (row col : Nat) (state : Bool)
  | blank (coordinates : List Coord)
  | clear
  deriving DecidableEq, Repr

/-- The state after running one operation (return values and thrown errors
discarded; `matrixBlanking` leaves its partial writes in place when it
throws). -/
def applyOp (m : MatrixWorld) : MOp → MatrixWorld
  | .resize rows cols => (m.matrixResize rows cols).2
  | .set row col state => (m.setCell row col state).2
  | .blank coordinates => (m.matrixBlanking coordinates).2
  | .clear => m.clearMatrix.2

/-- The state after a sequence of operations. -/
def applyOps (m : MatrixWorld) (ops : List MOp) : MatrixWorld :=
  ops.foldl applyOp m

/-! ### Specification-side predicates -/

/-- 4-directional adjacency as the spec states it: per-axis distance computed
underflow-safely as `max - min`, Manhattan sum exactly 1. -/
def adjacentB (a b : Coord) : Bool :=
  decide ((max a.1 b.1 - min a.1 b.1) + (max a.2 b.2 - min a.2 b.2) = 1)

/-- A coordinate that is in bounds and unblocked in the grid. -/
def inGrid (m : MatrixWorld) (x : Coord) : Prop :=
  x.1 < m.rows ∧ x.2 < m.cols ∧ m.cellUnblocked x.1 x.2 = true

instance (m : MatrixWorld) (x : Coord) : Decidable (inGrid m x) := by
  unfold inGrid; infer_instance

/-- The four neighbor positions of a center, as signed coordinates (in the
order the direction table enumerates them). -/
def neighborsOf (row col : Nat) : List (Int × Int) :=
  MatrixWorld.directions.map fun d => ((row : Int) + d.1, (col : Int) + d.2)

/-! ### Concrete grids used by witnesses and counterexamples -/

/-- The state `MatrixWorld(2, 2)` constructs: four unblocked cells. -/
def grid22 : MatrixWorld := ⟨List.replicate 4 false, 2, 2, 4, 0⟩

/-- A 256 × 256 grid with every cell blocked: the counter state a caller
reaches by blocking all 65536 cells one by one. -/
def gridBlocked256 : MatrixWorld := ⟨List.replicate 65536 true, 256, 256, 0, 65536⟩

/-! ### C7: contiguity check -/

/-- The conditional per-axis distance of `Path::isContiguous` equals
`max - min`. -/
lemma safeDist_eq (a b : Nat) : (if a > b then a - b else b - a) = max a b - min a b := by
  split <;> omega

/-- The pairwise step `isContiguous` enforces between consecutive
coordinates. -/
lemma isContiguous_cons_cons (a b : Coord) (rest : List Coord) :
    Path.isContiguous (a :: b :: rest) =
      if (max a.1 b.1 - min a.1 b.1) + (max a.2 b.2 - min a.2 b.2) ≠ 1 then false
      else Path.isContiguous (b :: rest) := by
  obtain ⟨r1, c1⟩ := a
  obtain ⟨r2, c2⟩ := b
  simp only [Path.isContiguous, safeDist_eq]

lemma isContiguous_iff_chain : ∀ p : List Coord,
    Path.isContiguous p = true ↔
      List.Chain' (fun a b : Coord =>
        (max a.1 b.1 - min a.1 b.1) + (max a.2 b.2 - min a.2 b.2) = 1) p
  | [] => by simp [Path.isContiguous]
  | [x] => by simp [Path.isContiguous]
  | a :: b :: rest => by
    rw [isContiguous_cons_cons, List.chain'_cons, ← isContiguous_iff_chain (b :: rest)]
    by_cases h : (max a.1 b.1 - min a.1 b.1) + (max a.2 b.2 - min a.2 b.2) = 1 <;>
      simp [h]

/-- C7: `Path::isContiguous` returns true iff every consecutive pair has
Manhattan distance exactly 1, with each per-axis distance computed
underflow-safely as `max - min`; the descending step `(8,5) → (7,5)` is
reported contiguous, and paths of length 0 or 1 are contiguous by
definition. -/
theorem isContiguous_spec :
    (∀ p : List Coord, Path.isContiguous p = true ↔
      List.Chain' (fun a b : Coord =>
        (max a.1 b.1 - min a.1 b.1) + (max a.2 b.2 - min a.2 b.2) = 1) p) ∧
    Path.isContiguous [(8, 5), (7, 5)] = true ∧
    (∀ p : List Coord, p.length ≤ 1 → Path.isContiguous p = true) := by
  refine ⟨isContiguous_iff_chain, by decide, fun p hp => ?_⟩
  match p, hp with
  | [], _ => rfl
  | [x], _ => rfl

/-- Witness for C7 at a concrete input with the length hypothesis
discharged. -/
theorem isContiguous_spec_witness : Path.isContiguous [((3 : Nat), (4 : Nat))] = true :=
  isContiguous_spec.2.2 [(3, 4)] (by decide)

/-! ### C9: 16-bit counter getters -/

/-- C9: the cell counters are 32-bit internally but the getters return 16-bit
values, so each getter reports the counter reduced modulo `2^16`; the report
equals the counter exactly when the counter is at most 65535, and a freshly
constructed 256 × 256 grid has 65536 unblocked cells but reports 0. -/
theorem counterGetters_truncate :
    (∀ m : MatrixWorld, m.getNoOfUnblockedCells = m.noOfUnblockedCells % 2 ^ 16 ∧
      m.getNoOfBlockedCells = m.noOfBlockedCells % 2 ^ 16) ∧
    (∀ m : MatrixWorld,
      (m.getNoOfUnblockedCells = m.noOfUnblockedCells ↔ m.noOfUnblockedCells ≤ 65535) ∧
      (m.getNoOfBlockedCells = m.noOfBlockedCells ↔ m.noOfBlockedCells ≤ 65535)) ∧
    (∃ g : MatrixWorld, MatrixWorld.construct 256 256 = .ok g ∧
      g.noOfUnblockedCells = 65536 ∧ g.getNoOfUnblockedCells = 0) := by
  refine ⟨fun m => ⟨rfl, rfl⟩, fun m => ⟨?_, ?_⟩, ?_⟩
  · unfold MatrixWorld.getNoOfUnblockedCells; omega
  · unfold MatrixWorld.getNoOfBlockedCells; omega
  · refine ⟨⟨List.replicate 65536 false, 256, 256, 65536, 0⟩, ?_, rfl, rfl⟩
    unfold MatrixWorld.construct MatrixWorld.matrixInit MatrixWorld.preConstruction
      MatrixWorld.vectorBoolMaxSize
    norm_num

/-! ### C2: setCell with an unchanged state (code bug) -/

/-- C2 (code bug): on a freshly constructed 2 × 2 grid, `setCell(0, 0,
false)` writes the state the cell already has; the claim, the spec, the
method documentation and the repository test `testSetCellSameState` all
require the call to return true, but the implementation returns false
(`matrix_utils.cpp` 187-190).  The counters are unchanged, as claimed. -/
theorem setCell_sameState_returns_false :
    MatrixWorld.construct 2 2 = .ok grid22 ∧
    grid22.setCell 0 0 false = (false, grid22) := by decide

/-! ### C3: matrixBlanking with an out-of-bounds coordinate (code bug) -/

/-- C3 (code bug): `matrixBlanking` is documented (and used by `main.cpp`) as
returning false when a coordinate is invalid, but the guard `isUnblocked`
throws `std::invalid_argument` for an out-of-bounds coordinate before
`setCell` can convert the failure to a bool, so the call propagates an
exception instead of returning false.  Cells blocked earlier in the same call
stay blocked (partial application, as claimed): on a fresh 2 × 2 grid,
blanking `[(0,0), (5,5)]` blocks `(0,0)` and then throws. -/
theorem matrixBlanking_oob_throws :
    grid22.matrixBlanking [(5, 5)] =
      (.error (.invalidArgument "The given parameters are out of bounds of the matrix"),
        grid22) ∧
    grid22.matrixBlanking [(0, 0), (5, 5)] =
      (.error (.invalidArgument "The given parameters are out of bounds of the matrix"),
        ⟨[true, false, false, false], 2, 2, 3, 1⟩) := by decide

/-! ### C10: the 16-bit batch size is narrowed to the 8-bit count parameter -/

/-- `findStartingPointCandidates` with a zero count fails immediately. -/
lemma findSPC_zero (m : MatrixWorld) (st : PathFinderUtils) :
    PathFinderUtils.findStartingPointCandidates m 0 st =
      .error (.invalidArgument "Number of candidates must be greater than zero.") := rfl

/-- One unfolding of the batch loop. -/
lemma findLoop_succ (m : MatrixWorld) (t count fuel : Nat) (st : PathFinderUtils) :
    DFSAlgorithm.findLoop m t count (fuel + 1) st =
      if st.isExhausted then .ok []
      else
        match PathFinderUtils.findStartingPointCandidates m count st with
        | .error e => .error e
        | .ok (startingPoints, st') =>
          match DFSAlgorithm.tryStarts m t startingPoints with
          | some p => .ok p
          | none => DFSAlgorithm.findLoop m t count fuel st' := rfl

/-- C10: `findViablePath` passes the 16-bit `MaxStartingPoints` value into the
selector's 8-bit count parameter, so the selector receives the batch size
modulo 256; any batch size that is a positive multiple of 256 is received as
0 and triggers the selector's zero-count invalid-argument failure whenever
the target length itself passes validation. -/
theorem maxStartingPoints_truncated :
    (∀ (m : MatrixWorld) (t v : Nat),
      DFSAlgorithm.findViablePath m t v = DFSAlgorithm.findViablePath m t (v % 256)) ∧
    (∀ (m : MatrixWorld) (t v : Nat), t ≠ 0 → t ≤ m.getTotalCells → 0 < v → v % 256 = 0 →
      DFSAlgorithm.findViablePath m t v =
        .error (.invalidArgument "Number of candidates must be greater than zero.")) := by
  constructor
  · intro m t v
    unfold DFSAlgorithm.findViablePath
    rw [show v % 256 % 256 = v % 256 from by omega]
  · intro m t v ht htot _ hv
    unfold DFSAlgorithm.findViablePath
    rw [if_neg ht, if_neg (by omega), hv]
    rw [show m.getTotalCells + 2 = (m.getTotalCells + 1) + 1 from rfl, findLoop_succ,
      findSPC_zero]
    rfl

/-- Witness for C10: a 2 × 2 grid, target length 1, batch size 256. -/
theorem maxStartingPoints_truncated_witness :
    DFSAlgorithm.findViablePath grid22 1 256 =
      .error (.invalidArgument "Number of candidates must be greater than zero.") :=
  maxStartingPoints_truncated.2 grid22 1 256 (by decide) (by decide) (by decide) (by decide)

/-! ### C8: strict vs. permissive error policies -/

/-- The direction fold of `countUnblockedNeighbors` counts exactly the mapped
neighbor positions that pass the bounds-and-unblocked predicate. -/
lemma neighborFold_eq (m : MatrixWorld) (row col : Nat) :
    ∀ (ds : List (Int × Int)) (n : Nat),
    ds.foldl
      (fun count direction =>
        let newRow : Int := (row : Int) + direction.1
        let newCol : Int := (col : Int) + direction.2
        if 0 ≤ newRow ∧ newRow < (m.rows : Int) ∧ 0 ≤ newCol ∧ newCol < (m.cols : Int) ∧
            m.cellUnblocked newRow.toNat newCol.toNat then count + 1 else count)
      n =
    n + ((ds.map fun d => ((row : Int) + d.1, (col : Int) + d.2)).filter fun q =>
      decide (0 ≤ q.1 ∧ q.1 < (m.rows : Int) ∧ 0 ≤ q.2 ∧ q.2 < (m.cols : Int) ∧
        m.cellUnblocked q.1.toNat q.2.toNat = true)).length
  | [], n => by simp
  | d :: rest, n => by
    simp only [List.foldl_cons, List.map_cons, List.filter_cons]
    by_cases h : 0 ≤ (row : Int) + d.1 ∧ (row : Int) + d.1 < (m.rows : Int) ∧
        0 ≤ (col : Int) + d.2 ∧ (col : Int) + d.2 < (m.cols : Int) ∧
        m.cellUnblocked ((row : Int) + d.1).toNat ((col : Int) + d.2).toNat = true
    · rw [if_pos h, if_pos (decide_eq_true h), neighborFold_eq m row col rest (n + 1)]
      simp only [List.length_cons]
      omega
    · rw [if_neg h, if_neg (by simpa using h), neighborFold_eq m row col rest n]
  termination_by ds => ds.length

/-- For an in-bounds center, the neighbor scan counts exactly the neighbor
positions that pass the bounds check and are unblocked. -/
lemma countUnblockedNeighbors_inBounds (m : MatrixWorld) (row col : Nat)
    (hr : row < m.rows) (hc : col < m.cols) :
    m.countUnblockedNeighbors row col =
      ((neighborsOf row col).filter fun q =>
        decide (0 ≤ q.1 ∧ q.1 < (m.rows : Int) ∧ 0 ≤ q.2 ∧ q.2 < (m.cols : Int) ∧
          m.cellUnblocked q.1.toNat q.2.toNat = true)).length := by
  rw [MatrixWorld.countUnblockedNeighbors, if_neg (by omega), neighborsOf,
    neighborFold_eq m row col MatrixWorld.directions 0]
  omega

/-- C8: the dual error policy.  `isUnblocked` fails strictly: an empty grid
yields the empty-grid (`std::length_error`) failure and an out-of-bounds
coordinate the bounds-violation (`std::invalid_argument`) failure.
`countUnblockedNeighbors` on the same out-of-bounds center instead returns
the sentinel 0 with no error; on an in-bounds center it returns the number
(at most 4) of 4-directional neighbors that are in bounds and unblocked. -/
theorem dualErrorPolicy :
    (∀ (m : MatrixWorld) (row col : Nat), m.worldMatrix ≠ [] →
      row ≥ m.rows ∨ col ≥ m.cols →
      m.isUnblocked row col =
        .error (.invalidArgument "The given parameters are out of bounds of the matrix")) ∧
    (∀ (m : MatrixWorld) (row col : Nat), m.worldMatrix = [] →
      m.isUnblocked row col =
        .error (.lengthError "The matrix is empty, index lookup is impossible!")) ∧
    (∀ (m : MatrixWorld) (row col : Nat), row ≥ m.rows ∨ col ≥ m.cols →
      m.countUnblockedNeighbors row col = 0) ∧
    (∀ (m : MatrixWorld) (row col : Nat), row < m.rows → col < m.cols →
      m.countUnblockedNeighbors row col =
        ((neighborsOf row col).filter fun q =>
          decide (0 ≤ q.1 ∧ q.1 < (m.rows : Int) ∧ 0 ≤ q.2 ∧ q.2 < (m.cols : Int) ∧
            m.cellUnblocked q.1.toNat q.2.toNat = true)).length ∧
      m.countUnblockedNeighbors row col ≤ 4) := by
  refine ⟨?_, ?_, ?_, ?_⟩
  · intro m row col hne hoob
    rw [MatrixWorld.isUnblocked, MatrixWorld.getIndex,
      if_neg (by simpa [List.isEmpty_iff] using hne), if_pos hoob]
  · intro m row col hemp
    rw [MatrixWorld.isUnblocked, MatrixWorld.getIndex, if_pos (by simp [hemp])]
  · intro m row col hoob
    rw [MatrixWorld.countUnblockedNeighbors, if_pos hoob]
  · intro m row col hr hc
    refine ⟨countUnblockedNeighbors_inBounds m row col hr hc, ?_⟩
    rw [countUnblockedNeighbors_inBounds m row col hr hc]
    calc ((neighborsOf row col).filter _).length ≤ (neighborsOf row col).length :=
        List.length_filter_le _ _
      _ = 4 := by rfl

/-! ### C4: the counter invariant -/

lemma valid_matrixInit {m m' : MatrixWorld} {rows cols : Nat}
    (h : m.matrixInit rows cols = .ok m') : m'.Valid := by
  simp only [MatrixWorld.matrixInit] at h
  split at h
  · exact absurd h (by simp)
  · split at h
    · exact absurd h (by simp)
    · rename_i hdims _
      injection h with h
      subst h
      refine ⟨?_, ?_, ?_, ?_⟩ <;>
        simp only [MatrixWorld.Valid, List.length_append, List.length_take,
          List.length_replicate] <;> omega

lemma valid_setCell (m : MatrixWorld) (h : m.Valid) (row col : Nat) (state : Bool) :
    (m.setCell row col state).2.Valid := by
  obtain ⟨hlen, hr, hc, hsum⟩ := h
  rw [MatrixWorld.setCell]
  cases hgi : m.getIndex row col with
  | error e => exact ⟨hlen, hr, hc, hsum⟩
  | ok idx =>
    dsimp only
    split
    · split
      · split
        · rename_i hg
          exact ⟨by simp [List.length_set, hlen], hr, hc, by dsimp only; omega⟩
        · exact ⟨by simp [List.length_set, hlen], hr, hc, hsum⟩
      · split
        · rename_i hg
          exact ⟨by simp [List.length_set, hlen], hr, hc, by dsimp only; omega⟩
        · exact ⟨by simp [List.length_set, hlen], hr, hc, hsum⟩
    · exact ⟨hlen, hr, hc, hsum⟩

lemma valid_matrixBlanking (m : MatrixWorld) (h : m.Valid) :
    ∀ coords : List Coord, (m.matrixBlanking coords).2.Valid
  | [] => h
  | c :: rest => by
    simp only [MatrixWorld.matrixBlanking]
    cases hiu : m.isUnblocked c.1 c.2 with
    | error e => exact h
    | ok b =>
      cases b with
      | true =>
        dsimp only
        split
        · exact valid_matrixBlanking (m.setCell c.1 c.2 true).2
            (valid_setCell m h c.1 c.2 true) rest
        · exact valid_setCell m h c.1 c.2 true
      | false => exact valid_matrixBlanking m h rest
  termination_by coords => coords.length

lemma valid_clearMatrix (m : MatrixWorld) (h : m.Valid) : m.clearMatrix.2.Valid := by
  obtain ⟨hlen, hr, hc, hsum⟩ := h
  rw [MatrixWorld.clearMatrix]
  split
  · exact ⟨hlen, hr, hc, hsum⟩
  · exact ⟨by simp [hlen], hr, hc, by simp [hlen]⟩

lemma valid_matrixResize (m : MatrixWorld) (h : m.Valid) (rows cols : Nat) :
    (m.matrixResize rows cols).2.Valid := by
  rw [MatrixWorld.matrixResize]
  cases hini : m.matrixInit rows cols with
  | ok m' => exact valid_matrixInit hini
  | error e => exact h

lemma valid_applyOp (m : MatrixWorld) (h : m.Valid) (op : MOp) : (applyOp m op).Valid := by
  cases op with
  | resize rows cols => exact valid_matrixResize m h rows cols
  | set row col state => exact valid_setCell m h row col state
  | blank coords => exact valid_matrixBlanking m h coords
  | clear => exact valid_clearMatrix m h

lemma valid_applyOps (m : MatrixWorld) (h : m.Valid) :
    ∀ ops : List MOp, (applyOps m ops).Valid
  | [] => h
  | op :: rest => valid_applyOps (applyOp m op) (valid_applyOp m h op) rest

/-- C4: after a successful construction, every sequence of public mutating
operations (resize, setCell, matrixBlanking, clearMatrix) preserves
`unblockedCount + blockedCount = rows * cols`, and both dimensions stay
strictly positive. -/
theorem countersInvariant (rows cols : Nat) (m0 : MatrixWorld)
    (h : MatrixWorld.construct rows cols = .ok m0) (ops : List MOp) :
    (applyOps m0 ops).noOfUnblockedCells + (applyOps m0 ops).noOfBlockedCells =
      (applyOps m0 ops).rows * (applyOps m0 ops).cols ∧
    1 ≤ (applyOps m0 ops).rows ∧ 1 ≤ (applyOps m0 ops).cols := by
  have hv := valid_applyOps m0 (valid_matrixInit h) ops
  exact ⟨hv.2.2.2, hv.2.1, hv.2.2.1⟩

/-- Witness for C4: a 2 × 2 grid with a mixed operation sequence, including
an out-of-bounds write, an out-of-bounds blanking, a clear and a resize. -/
theorem countersInvariant_witness :
    (applyOps grid22 [.set 0 0 true, .blank [(0, 1), (5, 5)], .clear,
        .resize 3 3, .set 9 9 true]).noOfUnblockedCells +
      (applyOps grid22 [.set 0 0 true, .blank [(0, 1), (5, 5)], .clear,
        .resize 3 3, .set 9 9 true]).noOfBlockedCells =
      (applyOps grid22 [.set 0 0 true, .blank [(0, 1), (5, 5)], .clear,
        .resize 3 3, .set 9 9 true]).rows *
      (applyOps grid22 [.set 0 0 true, .blank [(0, 1), (5, 5)], .clear,
        .resize 3 3, .set 9 9 true]).cols ∧
    1 ≤ (applyOps grid22 [.set 0 0 true, .blank [(0, 1), (5, 5)], .clear,
        .resize 3 3, .set 9 9 true]).rows ∧
    1 ≤ (applyOps grid22 [.set 0 0 true, .blank [(0, 1), (5, 5)], .clear,
        .resize 3 3, .set 9 9 true]).cols :=
  countersInvariant 2 2 grid22 (by decide)
    [.set 0 0 true, .blank [(0, 1), (5, 5)], .clear, .resize 3 3, .set 9 9 true]

/-! ### C5: the selector enumerates every unblocked cell exactly once -/

/-- The coordinates the population scan inserts, in scan order. -/
def coordScan (m : MatrixWorld) : List Coord :=
  (List.range m.getRowSize).flatMap fun colIndex =>
    (List.range m.getColSize).filterMap fun rowIndex =>
      if m.cellUnblocked rowIndex colIndex then some (rowIndex, colIndex) else none

lemma populateElems_map_snd (m : MatrixWorld) :
    (PathFinderUtils.populateElems m).map Prod.snd = coordScan m := by
  have h : ∀ ci ri, ((if m.cellUnblocked ri ci then
      some (m.countUnblockedNeighbors ri ci, (ri, ci)) else none).map
        (Prod.snd : Nat × Coord → Coord)) =
      (if m.cellUnblocked ri ci then some (ri, ci) else none) := by
    intro ci ri; split <;> rfl
  rw [PathFinderUtils.populateElems, coordScan, List.map_flatMap]
  simp only [List.map_filterMap, h]

lemma mem_coordScan (m : MatrixWorld) (x : Coord) :
    x ∈ coordScan m ↔
      x.1 < m.rows ∧ x.2 < m.cols ∧ m.cellUnblocked x.1 x.2 = true := by
  obtain ⟨r, c⟩ := x
  simp only [coordScan, List.mem_flatMap, List.mem_filterMap, List.mem_range,
    MatrixWorld.getRowSize, MatrixWorld.getColSize]
  constructor
  · rintro ⟨ci, hci, ri, hri, hsome⟩
    split at hsome
    · rename_i hu
      obtain ⟨rfl, rfl⟩ : ri = r ∧ ci = c := by
        simpa using congrArg (Option.getD · (0, 0)) hsome
      exact ⟨hri, hci, hu⟩
    · exact absurd hsome (by simp)
  · rintro ⟨hr, hc, hu⟩
    exact ⟨c, hc, r, hr, by rw [if_pos hu]⟩

lemma coordScan_nodup (m : MatrixWorld) : (coordScan m).Nodup := by
  rw [coordScan, List.nodup_flatMap]
  have hsnd : ∀ (x : Coord) (ci : Nat),
      x ∈ (List.range m.getColSize).filterMap
        (fun ri => if m.cellUnblocked ri ci then some (ri, ci) else none) →
      x.2 = ci := by
    intro x ci hx
    obtain ⟨ri, _, hsome⟩ := List.mem_filterMap.1 hx
    split at hsome
    · cases hsome; rfl
    · exact absurd hsome (by simp)
  constructor
  · intro ci _
    refine List.Nodup.filterMap ?_ (List.nodup_range _)
    intro a a' b hb hb'
    rw [Option.mem_def] at hb hb'
    split at hb
    · split at hb'
      · have h1 : a = b.1 := by cases hb; rfl
        have h2 : a' = b.1 := by cases hb'; rfl
        omega
      · exact absurd hb' (by simp)
    · exact absurd hb (by simp)
  · refine (List.nodup_range _).imp ?_
    intro a b hne x hxa hxb
    exact hne ((hsnd x a hxa).symm.trans (hsnd x b hxb))

/-- Elements handed out by the selector are scored unblocked in-bounds
cells. -/
lemma inGrid_of_mem_populateElems (m : MatrixWorld) {e : Nat × Coord}
    (he : e ∈ PathFinderUtils.populateElems m) : inGrid m e.2 := by
  have : e.2 ∈ (PathFinderUtils.populateElems m).map Prod.snd :=
    List.mem_map_of_mem Prod.snd he
  rw [populateElems_map_snd, mem_coordScan] at this
  exact this

/-- A successful selector call implies the selector was not exhausted. -/
lemma findSPC_ok_not_exhausted {m : MatrixWorld} {count : Nat}
    {st : PathFinderUtils} {r : List Coord × PathFinderUtils}
    (h : PathFinderUtils.findStartingPointCandidates m count st = .ok r) :
    st.isExhausted = false := by
  unfold PathFinderUtils.findStartingPointCandidates at h
  split at h
  · exact absurd h (by simp)
  · split at h
    · exact absurd h (by simp)
    · split at h
      · exact absurd h (by simp)
      · split at h
        · exact absurd h (by simp)
        · rename_i hex
          simpa using hex

/-- Outcome of one successful selector call from a state whose queue equals
the queue the call operates on (fresh states and already-populated states
both satisfy the hypothesis). -/
lemma findSPC_ok_cases {m : MatrixWorld} {count : Nat} {q : List (Nat × Coord)}
    {batch : List Coord} {st1 : PathFinderUtils}
    (hq : (if q.isEmpty then PathFinderUtils.buildQueue m else q) = q)
    (h : PathFinderUtils.findStartingPointCandidates m count ⟨q, false⟩ = .ok (batch, st1)) :
    (q.length > count ∧ batch = (q.take count).map Prod.snd ∧
      st1 = ⟨q.drop count, (q.drop count).isEmpty⟩) ∨
    (q.length ≤ count ∧ batch = q.map Prod.snd ∧ st1 = ⟨[], true⟩) := by
  unfold PathFinderUtils.findStartingPointCandidates at h
  split at h
  · exact absurd h (by simp)
  · split at h
    · exact absurd h (by simp)
    · split at h
      · exact absurd h (by simp)
      · split at h
        · exact absurd h (by simp)
        · rw [show (⟨q, false⟩ : PathFinderUtils).priorityQueue = q from rfl, hq] at h
          simp only [] at h
          split at h
          · rename_i hgt
            left
            obtain ⟨h1, h2⟩ : (q.take count).map Prod.snd = batch ∧
                (⟨q.drop count, (q.drop count).isEmpty⟩ : PathFinderUtils) = st1 := by
              have := Except.ok.inj h
              exact ⟨congrArg Prod.fst this, congrArg Prod.snd this⟩
            exact ⟨hgt, h1.symm, h2.symm⟩
          · rename_i hle
            right
            obtain ⟨h1, h2⟩ : q.map Prod.snd = batch ∧
                (⟨[], true⟩ : PathFinderUtils) = st1 := by
              have := Except.ok.inj h
              exact ⟨congrArg Prod.fst this, congrArg Prod.snd this⟩
            exact ⟨by omega, h1.symm, h2.symm⟩

/-- Concatenating the batches of a run that ends exhausted yields exactly the
queue contents, in order. -/
lemma runSelector_flatten (m : MatrixWorld) :
    ∀ (counts : List Nat) (q : List (Nat × Coord)) (batches : List (List Coord))
      (st' : PathFinderUtils),
      (if q.isEmpty then PathFinderUtils.buildQueue m else q) = q →
      PathFinderUtils.runSelector m ⟨q, false⟩ counts = .ok (batches, st') →
      st'.isExhausted = true →
      batches.flatten = q.map Prod.snd
  | [], q, batches, st', hq, hrun, hex => by
    simp only [PathFinderUtils.runSelector] at hrun
    have h := Except.ok.inj hrun
    have hst : (⟨q, false⟩ : PathFinderUtils) = st' := congrArg Prod.snd h
    rw [← hst] at hex
    exact absurd hex (by simp)
  | count :: counts, q, batches, st', hq, hrun, hex => by
    simp only [PathFinderUtils.runSelector] at hrun
    cases hspc : PathFinderUtils.findStartingPointCandidates m count ⟨q, false⟩ with
    | error e => rw [hspc] at hrun; exact absurd hrun (by simp)
    | ok r =>
      obtain ⟨batch, st1⟩ := r
      rw [hspc] at hrun
      dsimp only at hrun
      cases hrest : PathFinderUtils.runSelector m st1 counts with
      | error e => rw [hrest] at hrun; exact absurd hrun (by simp)
      | ok r2 =>
        obtain ⟨batches2, st2⟩ := r2
        rw [hrest] at hrun
        dsimp only at hrun
        have h := Except.ok.inj hrun
        have hb : batch :: batches2 = batches := congrArg Prod.fst h
        have hst : st2 = st' := congrArg Prod.snd h
        subst hb; subst hst
        rcases findSPC_ok_cases hq hspc with ⟨hgt, rfl, hst1⟩ | ⟨hle, rfl, hst1⟩
        · have hdne : q.drop count ≠ [] := by
            intro hnil
            have := congrArg List.length hnil
            simp only [List.length_drop, List.length_nil] at this
            omega
          have hemp : (q.drop count).isEmpty = false := List.isEmpty_eq_false.2 hdne
          rw [hst1, hemp] at hrest
          have hjoin := runSelector_flatten m counts (q.drop count) batches2 st2
            (by rw [hemp]; simp) hrest hex
          rw [List.flatten_cons, hjoin, ← List.map_append, List.take_append_drop]
        · cases counts with
          | nil =>
            simp only [PathFinderUtils.runSelector] at hrest
            have h2 := Except.ok.inj hrest
            have hb2 : ([] : List (List Coord)) = batches2 := congrArg Prod.fst h2
            rw [← hb2, List.flatten_cons, List.flatten_nil, List.append_nil]
          | cons c2 rest2 =>
            exfalso
            rw [hst1] at hrest
            simp only [PathFinderUtils.runSelector] at hrest
            cases hspc2 : PathFinderUtils.findStartingPointCandidates m c2 ⟨[], true⟩ with
            | error e => rw [hspc2] at hrest; exact absurd hrest (by simp)
            | ok r3 =>
              have := findSPC_ok_not_exhausted hspc2
              exact absurd this (by simp)
  termination_by counts => counts.length

/-- The first call on a fresh selector behaves exactly like a call on a
selector whose queue already holds the populated contents. -/
lemma findSPC_init_eq (m : MatrixWorld) (count : Nat) :
    PathFinderUtils.findStartingPointCandidates m count .init =
      PathFinderUtils.findStartingPointCandidates m count
        ⟨PathFinderUtils.buildQueue m, false⟩ := by
  unfold PathFinderUtils.findStartingPointCandidates
  simp only [PathFinderUtils.init, List.isEmpty_nil, if_true, ite_self]

/-- C5: running one selector instance to exhaustion over any sequence of
successful calls returns, across all batches together, exactly the set of
unblocked cells of the grid, each exactly once: the concatenation has no
duplicate and contains precisely the in-bounds unblocked coordinates. -/
theorem selector_enumeration (m : MatrixWorld) (counts : List Nat)
    (batches : List (List Coord)) (st' : PathFinderUtils)
    (hrun : PathFinderUtils.runSelector m .init counts = .ok (batches, st'))
    (hex : st'.isExhausted = true) :
    batches.flatten.Nodup ∧
    ∀ x : Coord, x ∈ batches.flatten ↔
      x.1 < m.rows ∧ x.2 < m.cols ∧ m.cellUnblocked x.1 x.2 = true := by
  have key : batches.flatten = (PathFinderUtils.buildQueue m).map Prod.snd := by
    cases counts with
    | nil =>
      simp only [PathFinderUtils.runSelector] at hrun
      have h := Except.ok.inj hrun
      have hst : PathFinderUtils.init = st' := congrArg Prod.snd h
      rw [← hst] at hex
      exact absurd hex (by simp [PathFinderUtils.init])
    | cons c rest =>
      have hswap : PathFinderUtils.runSelector m .init (c :: rest) =
          PathFinderUtils.runSelector m ⟨PathFinderUtils.buildQueue m, false⟩ (c :: rest) := by
        simp only [PathFinderUtils.runSelector, findSPC_init_eq]
      rw [hswap] at hrun
      exact runSelector_flatten m (c :: rest) (PathFinderUtils.buildQueue m) batches st'
        (ite_self _) hrun hex
  have hperm : List.Perm ((PathFinderUtils.buildQueue m).map Prod.snd) (coordScan m) := by
    rw [← populateElems_map_snd]
    exact (List.perm_insertionSort PathFinderUtils.popOrder _).map Prod.snd
  rw [key]
  constructor
  · exact hperm.symm.nodup (coordScan_nodup m)
  · intro x
    rw [hperm.mem_iff]
    exact mem_coordScan m x

/-- Witness for C5: on the 2 × 2 grid, the batches of sizes 1 and 3 cover all
four cells exactly once. -/
theorem selector_enumeration_witness :
    ([[(1, 1)], [(1, 0), (0, 1), (0, 0)]] : List (List Coord)).flatten.Nodup ∧
    ∀ x : Coord, x ∈ ([[(1, 1)], [(1, 0), (0, 1), (0, 0)]] : List (List Coord)).flatten ↔
      x.1 < grid22.rows ∧ x.2 < grid22.cols ∧ grid22.cellUnblocked x.1 x.2 = true :=
  selector_enumeration grid22 [1, 3] [[(1, 1)], [(1, 0), (0, 1), (0, 0)]] ⟨[], true⟩
    (by decide) rfl

/-! ### C1: soundness of the paths `findViablePath` returns -/

/-- Properties of every path the DFS produces: exact target length,
4-adjacency of consecutive coordinates, no repeated coordinate, and every
coordinate in bounds and unblocked. -/
def DfsOut (m : MatrixWorld) (t : Nat) (p : List Coord) : Prop :=
  p.length = t ∧ List.Chain' (fun a b => adjacentB a b = true) p ∧ p.Nodup ∧
  ∀ x ∈ p, inGrid m x

/-- Invariant the DFS maintains on its path and visited set. -/
def DfsInv (m : MatrixWorld) (path visited : List Coord) : Prop :=
  path ≠ [] ∧ List.Chain' (fun a b => adjacentB a b = true) path ∧ path.Nodup ∧
  (∀ x ∈ path, inGrid m x) ∧ ∀ x ∈ path, x ∈ visited

/-- A step by one of the four direction offsets moves to a 4-adjacent
coordinate. -/
lemma adjacent_step {d : Int × Int} (hd : d ∈ MatrixWorld.directions) (a : Coord)
    (h1 : 0 ≤ (a.1 : Int) + d.1) (h2 : 0 ≤ (a.2 : Int) + d.2) :
    adjacentB a (((a.1 : Int) + d.1).toNat, ((a.2 : Int) + d.2).toNat) = true := by
  simp only [MatrixWorld.directions, List.mem_cons, List.not_mem_nil, or_false] at hd
  rcases hd with rfl | rfl | rfl | rfl <;>
    · simp only [adjacentB, decide_eq_true_eq]
      omega

lemma dfsTry_sound (m : MatrixWorld) (t : Nat)
    (dfs : List Coord → List Coord → Option (List Coord))
    (hdfs : ∀ pa vi q, DfsInv m pa vi → dfs pa vi = some q → DfsOut m t q) :
    ∀ (dirs : List (Int × Int)), (∀ d ∈ dirs, d ∈ MatrixWorld.directions) →
    ∀ (path visited : List Coord) (cur : Coord) (p : List Coord),
      DfsInv m path visited → path.getLast? = some cur →
      DFSAlgorithm.dfsTry m dfs path visited cur dirs = some p → DfsOut m t p
  | [], _, path, visited, cur, p, _, _, h => by
    simp [DFSAlgorithm.dfsTry] at h
  | d :: rest, hdirs, path, visited, cur, p, hinv, hlast, h => by
    have hrest : ∀ x ∈ rest, x ∈ MatrixWorld.directions :=
      fun x hx => hdirs x (List.mem_cons_of_mem d hx)
    simp only [DFSAlgorithm.dfsTry] at h
    split at h
    · rename_i hcond
      obtain ⟨hc1, hc2, hc3, hc4, hc5, hc6⟩ := hcond
      obtain ⟨hne, hchain, hnodup, hgrid, hvis⟩ := hinv
      set n : Coord := (((cur.1 : Int) + d.1).toNat, ((cur.2 : Int) + d.2).toNat) with hn
      cases hdcall : dfs (path ++ [n]) (n :: visited) with
      | some q =>
        rw [hdcall] at h
        obtain rfl : p = q := (Option.some.inj h).symm
        have hgn : inGrid m n := by
          refine ⟨?_, ?_, hc6⟩
          · show ((cur.1 : Int) + d.1).toNat < m.rows
            have : ((cur.1 : Int) + d.1) < (m.rows : Int) := hc2
            omega
          · show ((cur.2 : Int) + d.2).toNat < m.cols
            have : ((cur.2 : Int) + d.2) < (m.cols : Int) := hc4
            omega
        refine hdfs _ _ p ⟨by simp, ?_, ?_, ?_, ?_⟩ hdcall
        · rw [List.chain'_append]
          refine ⟨hchain, List.chain'_singleton n, ?_⟩
          intro x hx y hy
          rw [hlast] at hx
          simp only [Option.mem_def, Option.some.injEq] at hx
          simp only [List.head?_cons, Option.mem_def, Option.some.injEq] at hy
          subst hx; subst hy
          exact adjacent_step (hdirs d (List.mem_cons_self d rest)) cur hc1 hc3
        · rw [List.nodup_append]
          refine ⟨hnodup, List.nodup_singleton n, ?_⟩
          intro x hx hx'
          obtain rfl : x = n := by simpa using hx'
          exact hc5 (hvis n hx)
        · intro x hx
          rcases List.mem_append.1 hx with hx | hx
          · exact hgrid x hx
          · obtain rfl : x = n := by simpa using hx
            exact hgn
        · intro x hx
          rcases List.mem_append.1 hx with hx | hx
          · exact List.mem_cons_of_mem n (hvis x hx)
          · obtain rfl : x = n := by simpa using hx
            exact List.mem_cons_self n visited
      | none =>
        rw [hdcall] at h
        exact dfsTry_sound m t dfs hdfs rest hrest path visited cur p
          ⟨hne, hchain, hnodup, hgrid, hvis⟩ hlast h
    · exact dfsTry_sound m t dfs hdfs rest hrest path visited cur p hinv hlast h

lemma dfsRecursive_sound (m : MatrixWorld) (t : Nat) :
    ∀ (fuel : Nat) (path visited : List Coord) (p : List Coord),
      DfsInv m path visited →
      DFSAlgorithm.dfsRecursive m t fuel path visited = some p → DfsOut m t p
  | 0, path, visited, p, _, h => by simp [DFSAlgorithm.dfsRecursive] at h
  | fuel + 1, path, visited, p, hinv, h => by
    simp only [DFSAlgorithm.dfsRecursive] at h
    split at h
    · rename_i hlen
      obtain rfl : path = p := Option.some.inj h
      exact ⟨hlen, hinv.2.1, hinv.2.2.1, hinv.2.2.2.1⟩
    · cases hlast : path.getLast? with
      | none => rw [hlast] at h; exact absurd h (by simp)
      | some cur =>
        rw [hlast] at h
        exact dfsTry_sound m t _
          (fun pa vi q hq hcall => dfsRecursive_sound m t fuel pa vi q hq hcall)
          MatrixWorld.directions (fun _ hd => hd) path visited cur p hinv hlast h

lemma tryStarts_sound (m : MatrixWorld) (t : Nat) :
    ∀ (starts : List Coord) (p : List Coord), (∀ s ∈ starts, inGrid m s) →
      DFSAlgorithm.tryStarts m t starts = some p → DfsOut m t p
  | [], p, _, h => by simp [DFSAlgorithm.tryStarts] at h
  | s :: rest, p, hs, h => by
    simp only [DFSAlgorithm.tryStarts] at h
    cases hdfs : DFSAlgorithm.dfsRecursive m t t [s] [s] with
    | some q =>
      rw [hdfs] at h
      obtain rfl : p = q := (Option.some.inj h).symm
      refine dfsRecursive_sound m t t [s] [s] p
        ⟨by simp, List.chain'_singleton s, List.nodup_singleton s, ?_, by simp⟩ hdfs
      intro x hx
      obtain rfl : x = s := by simpa using hx
      exact hs x (List.mem_cons_self x rest)
    | none =>
      rw [hdfs] at h
      exact tryStarts_sound m t rest p
        (fun x hx => hs x (List.mem_cons_of_mem s hx)) h

/-- Outcome of the extraction stage of one selector call, for a queue whose
elements all come from the population scan. -/
lemma findSPC_mem_aux (m : MatrixWorld) (count : Nat) (Q : List (Nat × Coord))
    (hq : ∀ e ∈ Q, e ∈ PathFinderUtils.populateElems m)
    {starts : List Coord} {st1 : PathFinderUtils}
    (h : (if Q.length > count then
        Except.ok (⟨(Q.take count).map Prod.snd,
          ⟨Q.drop count, (Q.drop count).isEmpty⟩⟩ : List Coord × PathFinderUtils)
      else Except.ok (⟨Q.map Prod.snd, ⟨[], true⟩⟩ : List Coord × PathFinderUtils)) =
      (Except.ok (⟨starts, st1⟩ : List Coord × PathFinderUtils) : Except Err _)) :
    (∀ s ∈ starts, inGrid m s) ∧
    (∀ e ∈ st1.priorityQueue, e ∈ PathFinderUtils.populateElems m) := by
  split at h
  · have hp := Except.ok.inj h
    have hstarts := congrArg Prod.fst hp
    have hst1 := congrArg Prod.snd hp
    dsimp only at hstarts hst1
    constructor
    · intro s hs
      rw [← hstarts] at hs
      obtain ⟨e, he, rfl⟩ := List.mem_map.1 hs
      exact inGrid_of_mem_populateElems m (hq e (List.mem_of_mem_take he))
    · intro e he
      rw [← hst1] at he
      exact hq e (List.mem_of_mem_drop he)
  · have hp := Except.ok.inj h
    have hstarts := congrArg Prod.fst hp
    have hst1 := congrArg Prod.snd hp
    dsimp only at hstarts hst1
    constructor
    · intro s hs
      rw [← hstarts] at hs
      obtain ⟨e, he, rfl⟩ := List.mem_map.1 hs
      exact inGrid_of_mem_populateElems m (hq e he)
    · intro e he
      rw [← hst1] at he
      exact absurd he (List.not_mem_nil e)

/-- A successful selector call hands out in-grid starting points and leaves
only populated elements in the queue. -/
lemma findSPC_mem {m : MatrixWorld} {count : Nat} {st : PathFinderUtils}
    {starts : List Coord} {st1 : PathFinderUtils}
    (h : PathFinderUtils.findStartingPointCandidates m count st = .ok (starts, st1))
    (hst : ∀ e ∈ st.priorityQueue, e ∈ PathFinderUtils.populateElems m) :
    (∀ s ∈ starts, inGrid m s) ∧
    (∀ e ∈ st1.priorityQueue, e ∈ PathFinderUtils.populateElems m) := by
  unfold PathFinderUtils.findStartingPointCandidates at h
  split at h
  · exact absurd h (by simp)
  · split at h
    · exact absurd h (by simp)
    · split at h
      · exact absurd h (by simp)
      · split at h
        · exact absurd h (by simp)
        · simp only [] at h
          split at h
          · exact findSPC_mem_aux m count (PathFinderUtils.buildQueue m)
              (fun e he =>
                (List.perm_insertionSort PathFinderUtils.popOrder _).subset he) h
          · exact findSPC_mem_aux m count st.priorityQueue hst h

lemma findLoop_sound (m : MatrixWorld) (t count : Nat) :
    ∀ (fuel : Nat) (st : PathFinderUtils) (p : List Coord),
      (∀ e ∈ st.priorityQueue, e ∈ PathFinderUtils.populateElems m) →
      DFSAlgorithm.findLoop m t count fuel st = .ok p → p ≠ [] → DfsOut m t p
  | 0, st, p, _, h, _ => by simp [DFSAlgorithm.findLoop] at h
  | fuel + 1, st, p, hst, h, hne => by
    simp only [DFSAlgorithm.findLoop] at h
    split at h
    · exact absurd (Except.ok.inj h).symm hne
    · cases hspc : PathFinderUtils.findStartingPointCandidates m count st with
      | error e => rw [hspc] at h; exact absurd h (by simp)
      | ok r =>
        obtain ⟨starts, st1⟩ := r
        rw [hspc] at h
        dsimp only at h
        have hmem := findSPC_mem hspc hst
        cases htry : DFSAlgorithm.tryStarts m t starts with
        | some q =>
          rw [htry] at h
          obtain rfl : p = q := (Except.ok.inj h).symm
          exact tryStarts_sound m t starts p hmem.1 htry
        | none =>
          rw [htry] at h
          exact findLoop_sound m t count fuel st1 p hmem.2 h hne

/-- At an in-bounds coordinate of a well-formed grid, the strict query
succeeds and agrees with the raw bit read. -/
lemma isUnblocked_eq_cellUnblocked (m : MatrixWorld) (hv : m.Valid)
    {row col : Nat} (hr : row < m.rows) (hc : col < m.cols) :
    m.isUnblocked row col = .ok (m.cellUnblocked row col) := by
  obtain ⟨hlen, hrows, hcols, _⟩ := hv
  rw [MatrixWorld.isUnblocked, MatrixWorld.getIndex, if_neg, if_neg (by omega)]
  · rfl
  · rw [List.isEmpty_iff]
    intro hnil
    rw [hnil] at hlen
    have := Nat.mul_pos hrows hcols
    simp at hlen
    omega

/-- C1: for a well-formed grid with at least one unblocked cell and
`1 ≤ targetLength ≤ totalCells`, any non-empty path `findViablePath` returns
has length exactly `targetLength`, consecutive coordinates at Manhattan
distance exactly 1, no repeated coordinate, and every coordinate in bounds
and unblocked. -/
theorem findViablePath_sound (m : MatrixWorld) (hv : m.Valid)
    (_hub : ∃ x : Coord, inGrid m x) (t batch : Nat) (h1 : 1 ≤ t)
    (h2 : t ≤ m.getTotalCells) (p : List Coord)
    (hp : DFSAlgorithm.findViablePath m t batch = .ok p) (hne : p ≠ []) :
    p.length = t ∧ List.Chain' (fun a b => adjacentB a b = true) p ∧ p.Nodup ∧
    ∀ x ∈ p, x.1 < m.rows ∧ x.2 < m.cols ∧ m.isUnblocked x.1 x.2 = .ok true := by
  unfold DFSAlgorithm.findViablePath at hp
  rw [if_neg (by omega), if_neg (by omega)] at hp
  obtain ⟨hlen, hchain, hnodup, hgrid⟩ :=
    findLoop_sound m t (batch % 256) (m.getTotalCells + 2) PathFinderUtils.init p
      (by intro e he; exact absurd he (List.not_mem_nil e)) hp hne
  refine ⟨hlen, hchain, hnodup, fun x hx => ?_⟩
  obtain ⟨ha, hb, hc⟩ := hgrid x hx
  exact ⟨ha, hb, by rw [isUnblocked_eq_cellUnblocked m hv ha hb, hc]⟩

/-- Witness for C1: the 2 × 2 grid, target length 1, batch size 1 returns the
single-cell path `[(1,1)]`, which satisfies all four properties. -/
theorem findViablePath_sound_witness :
    ([(1, 1)] : List Coord).length = 1 ∧
    List.Chain' (fun a b => adjacentB a b = true) ([(1, 1)] : List Coord) ∧
    ([(1, 1)] : List Coord).Nodup ∧
    ∀ x ∈ ([(1, 1)] : List Coord),
      x.1 < grid22.rows ∧ x.2 < grid22.cols ∧ grid22.isUnblocked x.1 x.2 = .ok true :=
  findViablePath_sound grid22 (by decide) ⟨(0, 0), by decide⟩ 1 1 (by decide) (by decide)
    [(1, 1)] (by decide) (by decide)

/-! ### C6: selector validation errors, and the truncated fully-blocked check -/

/-- Every in-bounds cell of the fully blocked 256 × 256 grid reads
blocked. -/
lemma cellUnblocked_gridBlocked256 {r c : Nat} (hr : r < 256) (hc : c < 256) :
    gridBlocked256.cellUnblocked r c = false := by
  rw [MatrixWorld.cellUnblocked]
  have hidx : r * gridBlocked256.cols + c < 65536 := by
    show r * 256 + c < 65536
    omega
  rw [List.getD_eq_getElem?_getD]
  rw [show gridBlocked256.worldMatrix = List.replicate 65536 true from rfl]
  rw [List.getElem?_replicate, if_pos hidx]
  rfl

/-- The population scan of the fully blocked 256 × 256 grid inserts
nothing. -/
lemma populateElems_gridBlocked256 :
    PathFinderUtils.populateElems gridBlocked256 = [] := by
  rw [List.eq_nil_iff_forall_not_mem]
  intro e he
  have hg := inGrid_of_mem_populateElems gridBlocked256 he
  have hfalse := cellUnblocked_gridBlocked256 hg.1 hg.2.1
  rw [hg.2.2] at hfalse
  exact Bool.noConfusion hfalse

/-- C6 (code bug): the fully-blocked precondition check of
`findStartingPointCandidates` compares the true total cell count
(`getTotalCells`, a `size_t`) against the 16-bit-truncated blocked count
(`getNoOfBlockedCells`), so a fully blocked grid with 65536 cells is not
detected: instead of the documented `std::invalid_argument`, the call
returns an empty batch and marks the selector exhausted.  The grid is a
well-formed state (`Valid`) with zero unblocked cells. -/
theorem fullyBlocked_check_truncated :
    gridBlocked256.Valid ∧
    gridBlocked256.noOfUnblockedCells = 0 ∧
    PathFinderUtils.findStartingPointCandidates gridBlocked256 1 .init =
      .ok ([], ⟨[], true⟩) := by
  refine ⟨?_, rfl, ?_⟩
  · rw [MatrixWorld.Valid]
    refine ⟨?_, ?_, ?_, ?_⟩ <;> norm_num [gridBlocked256]
  · have hq : PathFinderUtils.buildQueue gridBlocked256 = [] := by
      rw [PathFinderUtils.buildQueue, populateElems_gridBlocked256]
      rfl
    unfold PathFinderUtils.findStartingPointCandidates
    rw [if_neg (by norm_num), if_neg, if_neg, if_neg (by simp [PathFinderUtils.init])]
    · simp only [PathFinderUtils.init, List.isEmpty_nil, if_true, hq]
      rfl
    · show ¬1 > gridBlocked256.getTotalCells
      norm_num [MatrixWorld.getTotalCells, gridBlocked256]
    · show ¬gridBlocked256.getTotalCells = gridBlocked256.getNoOfBlockedCells
      norm_num [MatrixWorld.getTotalCells, MatrixWorld.getNoOfBlockedCells, gridBlocked256]

/-- Witness for C8: both policies observed on the 2 × 2 grid. -/
theorem dualErrorPolicy_witness :
    grid22.isUnblocked 5 5 =
      .error (.invalidArgument "The given parameters are out of bounds of the matrix") ∧
    grid22.countUnblockedNeighbors 5 5 = 0 ∧
    grid22.countUnblockedNeighbors 0 0 ≤ 4 :=
  ⟨dualErrorPolicy.1 grid22 5 5 (by decide) (Or.inl (by decide)),
   dualErrorPolicy.2.2.1 grid22 5 5 (Or.inl (by decide)),
   (dualErrorPolicy.2.2.2 grid22 0 0 (by decide) (by decide)).2⟩
